import Mathlib

/-!
Verification of the group-permission evaluator and group provisioner of
`pyserver_tools` (files `permissions.py` and `utils.py`), via a shallow
embedding of the Python code into Lean.

Conventions of the embedding:
* A Django `User` is identified by its primary key, a `Nat`.
* The `Group` table of the authorization store is an association list keyed by
  the (unique) group name.  For the evaluator the payload is the member set
  (list of user pks); for the provisioner it is the set of attached permission
  codenames.
* Python runtime values appearing at type-check boundaries are modelled by
  `PyVal`; the `isinstance` checks of `utils.py` become pattern matches.
* A Python function that can raise is modelled as returning the final store
  together with `Option PyErr` (`none` = returned normally, `some e` = raised
  `e`); mutations performed before a raise persist, as they do in Python.
-/

namespace PyserverTools

/-- Python exceptions raised (or caught) by the code under verification. -/
inductive PyErr where
  | typeError : String → PyErr
  | valueError : String → PyErr
  | doesNotExist : String → PyErr
deriving DecidableEq, Repr

/-- Python runtime values crossing the `isinstance`-checked boundaries of
`utils.py`. -/
inductive PyVal where
  | str : String → PyVal
  | int : Int → PyVal
  | bool : Bool → PyVal
  | list : List PyVal → PyVal
  | none : PyVal
deriving Repr

/-- Python truthiness, used by `if raise_exceptions:` in
`force_recreate_group` where `raise_exceptions` may not be a `bool`. -/
def pyTruthy : PyVal → Bool
  | .str s => s ≠ ""
  | .int n => n ≠ 0
  | .bool b => b
  | .list l => ¬ l.isEmpty
  | .none => false

/-- Lookup in an association list keyed by strings.  Models both
`dict.get(key)` (Python dict keys are unique) and `Model.objects.get /
.filter(name=...)` row lookup (Django group names carry a unique
constraint). -/
def assocLookup {α : Type} : List (String × α) → String → Option α
  | [], _ => Option.none
  | (k, v) :: rest, key => if k = key then some v else assocLookup rest key

/-! ## The evaluator (`permissions.py`) -/

/-- The `Group` table as seen by the evaluator: group name ↦ member pks. -/
abbrev MemberDB : Type := List (String × List Nat)

/-- `Group.objects.get(name=group_name)` followed by the membership query:
raises `Group.DoesNotExist` when no group of that name exists, otherwise
returns whether `user` is in the group's `user_set`. -/
def getMembershipE (db : MemberDB) (user : Nat) (group_name : String) :
    Except PyErr Bool :=
  match assocLookup db group_name with
  | some members => .ok (members.contains user)
  | Option.none => .error (.doesNotExist group_name)

/-- `is_in_group(user, group_name)`: the `try`/`except Group.DoesNotExist`
wrapper around the membership query; a missing group yields `False`. -/
def is_in_group (db : MemberDB) (user : Nat) (group_name : String) : Bool :=
  match getMembershipE db user group_name with
  | .ok b => b
  | .error (.doesNotExist _) => false
  | .error _ => false

/-- `check_in_group` is a plain wrapper for `is_in_group`. -/
def check_in_group (db : MemberDB) (user : Nat) (group_name : String) : Bool :=
  is_in_group db user group_name

/-- The parts of a DRF view read by `HasGroupPermission`: its
`permission_groups` dict (action ↦ required group names) and its current
`action`. -/
structure View where
  action : String
  permission_groups : List (String × List String)

/-- `HasGroupPermission.has_action_permission(request, view, action)`. -/
def has_action_permission (db : MemberDB) (user : Nat) (view : View)
    (action : String) : Bool :=
  match assocLookup view.permission_groups action with
  | Option.none => false
  | some required_groups =>
    if required_groups.contains "_Public" then true
    else required_groups.any (fun group_name => check_in_group db user group_name)

/-- `HasGroupPermission.has_permission(request, view)` delegates to
`has_action_permission` at `view.action`. -/
def has_permission (db : MemberDB) (user : Nat) (view : View) : Bool :=
  has_action_permission db user view view.action

/-- Exception-propagating rendition of `any(check_in_group(...) for ...)`:
an uncaught exception inside the generator would escape `any`. -/
def anyMemberE (db : MemberDB) (user : Nat) :
    List String → Except PyErr Bool
  | [] => .ok false
  | g :: gs =>
    match
      (match getMembershipE db user g with
       | .ok b => Except.ok b
       | .error (.doesNotExist _) => Except.ok false
       | .error e => Except.error e) with
    | .ok true => .ok true
    | .ok false => anyMemberE db user gs
    | .error e => .error e

/-- Exception-propagating rendition of `has_action_permission`: every raise
site of the body is made explicit, so that "never raises" is a theorem about
this definition rather than an artefact of the embedding. -/
def has_action_permissionE (db : MemberDB) (user : Nat) (view : View)
    (action : String) : Except PyErr Bool :=
  match assocLookup view.permission_groups action with
  | Option.none => .ok false
  | some required_groups =>
    if required_groups.contains "_Public" then .ok true
    else anyMemberE db user required_groups

/-! ## The provisioner (`utils.py`) -/

/-- The `Group` table as seen by the provisioner: group name ↦ attached
permission codenames. -/
abbrev GroupDB : Type := List (String × List String)

/-- `group.permissions.clear()` on the (unique) group named `name`. -/
def clearPerms : GroupDB → String → GroupDB
  | [], _ => []
  | g :: rest, name =>
    if g.1 = name then (g.1, []) :: rest else g :: clearPerms rest name

/-- `group.permissions.add(permission)` on the (unique) group named `name`:
attaching an already-attached permission is a no-op (m2m set semantics). -/
def addPerm : GroupDB → String → String → GroupDB
  | [], _, _ => []
  | g :: rest, name, p =>
    if g.1 = name then
      (g.1, if g.2.contains p then g.2 else g.2 ++ [p]) :: rest
    else g :: addPerm rest name p

/-- `group.delete()` on the group named `name` (names are unique, so at most
one row matches). -/
def deleteGroup (db : GroupDB) (name : String) : GroupDB :=
  db.filter (fun g => g.1 ≠ name)

/-- Does a codename resolve in the host's permission registry?
`Permission.objects.get(codename=codename)` finds a row exactly when the
value is a string present in the registry; any other value matches no row
and takes the `Permission.DoesNotExist` path. -/
def resolves (registry : List String) : PyVal → Bool
  | .str s => registry.contains s
  | _ => false

/-- The `for codename in permissions:` loop at the end of `create_group`:
each codename that resolves is added to the group; an unresolvable codename
raises `ValueError` when `raise_exceptions` else is skipped. -/
def addPermsLoop (registry : List String) (group_name : String)
    (raise_exceptions : Bool) :
    GroupDB → List PyVal → GroupDB × Option PyErr
  | db, [] => (db, Option.none)
  | db, c :: rest =>
    match c with
    | .str s =>
      if registry.contains s then
        addPermsLoop registry group_name raise_exceptions
          (addPerm db group_name s) rest
      else if raise_exceptions then
        (db, some (.valueError ("Permission " ++ s ++ " does not exist")))
      else
        addPermsLoop registry group_name raise_exceptions db rest
    | _ =>
      if raise_exceptions then
        (db, some (.valueError "Permission does not exist"))
      else
        addPermsLoop registry group_name raise_exceptions db rest

/-- The body of `create_group` after its `isinstance` checks: the
`get_or_create` / `force`-clear / conflict dispatch followed by the
permission loop.  Returns the store after the call together with the raised
exception, if any. -/
def create_group_core (registry : List String) (db : GroupDB)
    (group_name : String) (permissions : List PyVal)
    (force _verbose raise_exceptions : Bool) : GroupDB × Option PyErr :=
  match assocLookup db group_name with
  | Option.none =>
    -- `created = True`: a fresh group with no permissions is inserted
    addPermsLoop registry group_name raise_exceptions
      (db ++ [(group_name, ([] : List String))]) permissions
  | some _ =>
    if force then
      -- `not created and force`: clear, then fall through to the loop
      addPermsLoop registry group_name raise_exceptions
        (clearPerms db group_name) permissions
    else if raise_exceptions then
      (db, some (.valueError ("Group " ++ group_name ++ " already exists")))
    else
      (db, Option.none)

/-- `create_group(self, group_name, permissions, force, verbose,
raise_exceptions)`: the five unconditional `isinstance` checks, then the
body. -/
def create_group (registry : List String) (db : GroupDB)
    (group_name permissions force verbose raise_exceptions : PyVal) :
    GroupDB × Option PyErr :=
  match group_name with
  | .str name =>
    match permissions with
    | .list perms =>
      match force with
      | .bool f =>
        match verbose with
        | .bool v =>
          match raise_exceptions with
          | .bool re => create_group_core registry db name perms f v re
          | _ => (db, some (.typeError "Expected bool"))
        | _ => (db, some (.typeError "Expected bool"))
      | _ => (db, some (.typeError "Expected bool"))
    | _ => (db, some (.typeError "Expected list"))
  | _ => (db, some (.typeError "Expected str"))

/-- `force_recreate_group(self, group_name, verbose, raise_exceptions)`:
type checks guarded by the truthiness of `raise_exceptions`, then delete the
group if it exists (raising `ValueError` on absence only when
`raise_exceptions`).  Despite its name, it never recreates anything. -/
def force_recreate_group (db : GroupDB)
    (group_name verbose raise_exceptions : PyVal) : GroupDB × Option PyErr :=
  match group_name with
  | .str name =>
    match verbose with
    | .bool _ =>
      match raise_exceptions with
      | .bool re =>
        match assocLookup db name with
        | Option.none =>
          if ¬ re then (db, Option.none)
          else (db, some (.valueError ("Group " ++ name ++ " does not exist")))
        | some _ => (deleteGroup db name, Option.none)
      | other =>
        if pyTruthy other then (db, some (.typeError "Expected bool"))
        else (db, Option.none)
    | _ =>
      if pyTruthy raise_exceptions then (db, some (.typeError "Expected bool"))
      else (db, Option.none)
  | _ =>
    if pyTruthy raise_exceptions then (db, some (.typeError "Expected str"))
    else (db, Option.none)

/-! ## Helper lemmas about the evaluator -/

lemma is_in_group_eq (db : MemberDB) (user : Nat) (g : String) :
    (match getMembershipE db user g with
      | .ok b => Except.ok b
      | .error (.doesNotExist _) => Except.ok false
      | .error e => Except.error e) =
    (Except.ok (is_in_group db user g) : Except PyErr Bool) := by
  unfold is_in_group getMembershipE
  cases h : assocLookup db g <;> rfl

lemma anyMemberE_ok (db : MemberDB) (user : Nat) (gs : List String) :
    anyMemberE db user gs =
      .ok (gs.any (fun g => is_in_group db user g)) := by
  induction gs with
  | nil => rfl
  | cons g gs ih =>
    unfold anyMemberE
    rw [is_in_group_eq]
    cases h : is_in_group db user g <;> simp [h, ih]

lemma is_in_group_of_absent (db : MemberDB) (user : Nat) (g : String)
    (h : assocLookup db g = Option.none) : is_in_group db user g = false := by
  unfold is_in_group getMembershipE
  rw [h]

/-! ## Claim theorems about the evaluator -/

/-- C1: for every user and action-permission map, if the action is not a key
in the map (the dict lookup returns `None`), `has_action_permission` returns
`false`; and `has_permission` is exactly `has_action_permission` at the
view's own action, so it denies likewise. -/
theorem hasActionPermission_deny_by_default (db : MemberDB) (user : Nat)
    (view : View) (action : String)
    (h : assocLookup view.permission_groups action = Option.none) :
    has_action_permission db user view action = false ∧
    has_permission db user view =
      has_action_permission db user view view.action := by
  refine ⟨?_, rfl⟩
  unfold has_action_permission
  rw [h]

/-- C1 witness: a concrete view whose map lacks the action "list". -/
theorem hasActionPermission_deny_by_default_witness :
    assocLookup (View.mk "list" [("create", ["admins"])]).permission_groups
        "list" = Option.none ∧
    has_action_permission [("admins", [1])] 1
        (View.mk "list" [("create", ["admins"])]) "list" = false :=
  ⟨by decide,
   (hasActionPermission_deny_by_default [("admins", [1])] 1
      (View.mk "list" [("create", ["admins"])]) "list" (by decide)).1⟩

/-- C2: if the sentinel "_Public" appears anywhere in the required-group
list mapped to the action, `has_action_permission` returns `true` for every
user and every membership store — no membership or authentication check. -/
theorem hasActionPermission_public_sentinel (db : MemberDB) (user : Nat)
    (view : View) (action : String) (required : List String)
    (h : assocLookup view.permission_groups action = some required)
    (hp : "_Public" ∈ required) :
    has_action_permission db user view action = true := by
  unfold has_action_permission
  rw [h]
  simp [hp]

/-- C2 witness: sentinel among other groups, user in no group at all. -/
theorem hasActionPermission_public_sentinel_witness :
    assocLookup (View.mk "list" [("list", ["admins", "_Public"])]).permission_groups
        "list" = some ["admins", "_Public"] ∧
    "_Public" ∈ ["admins", "_Public"] ∧
    has_action_permission [] 42
        (View.mk "list" [("list", ["admins", "_Public"])]) "list" = true :=
  ⟨by decide, by decide,
   hasActionPermission_public_sentinel [] 42
     (View.mk "list" [("list", ["admins", "_Public"])]) "list"
     ["admins", "_Public"] (by decide) (by decide)⟩

/-- C3: for an action mapped to a required list not containing the sentinel,
`has_action_permission` is true iff the user is in at least one listed group
(OR semantics); in particular it is false when the user is in none of them,
which covers the empty list. -/
theorem hasActionPermission_or_semantics (db : MemberDB) (user : Nat)
    (view : View) (action : String) (required : List String)
    (h : assocLookup view.permission_groups action = some required)
    (hs : "_Public" ∉ required) :
    (has_action_permission db user view action = true ↔
      ∃ g ∈ required, is_in_group db user g = true) ∧
    ((∀ g ∈ required, is_in_group db user g = false) →
      has_action_permission db user view action = false) := by
  unfold has_action_permission
  rw [h]
  have hc : required.contains "_Public" = false := by
    simp [List.elem_eq_mem, hs]
  dsimp only
  rw [hc]
  constructor
  · simp [check_in_group, List.any_eq_true]
  · intro hall
    simp only [Bool.false_eq_true, if_false, List.any_eq_false]
    intro g hg
    simp [check_in_group, hall g hg]

/-- C3 witness: user 1 in {"admins"} against required {"admins","editors"}
gives true; the empty required list gives false. -/
theorem hasActionPermission_or_semantics_witness :
    has_action_permission [("admins", [1]), ("editors", [2])] 1
        (View.mk "list" [("list", ["admins", "editors"])]) "list" = true ∧
    has_action_permission [("admins", [1]), ("editors", [2])] 1
        (View.mk "list" [("list", [])]) "list" = false :=
  ⟨(hasActionPermission_or_semantics [("admins", [1]), ("editors", [2])] 1
      (View.mk "list" [("list", ["admins", "editors"])]) "list"
      ["admins", "editors"] (by decide) (by decide)).1.mpr
      ⟨"admins", by decide, by decide⟩,
   (hasActionPermission_or_semantics [("admins", [1]), ("editors", [2])] 1
      (View.mk "list" [("list", [])]) "list" [] (by decide) (by decide)).2
      (by intro g hg; cases hg)⟩

/-- C8: the evaluator never raises — the exception-propagating rendition
always returns `ok`, with the same boolean as the total function; an action
absent from the map yields `false`, and a required group name matching no
existing group yields non-membership (`false`), not an error. -/
theorem evaluator_never_raises (db : MemberDB) (user : Nat) (view : View)
    (action : String) :
    has_action_permissionE db user view action =
      .ok (has_action_permission db user view action) ∧
    (assocLookup view.permission_groups action = Option.none →
      has_action_permission db user view action = false) ∧
    (∀ g, assocLookup db g = Option.none → is_in_group db user g = false) := by
  refine ⟨?_, ?_, fun g hg => is_in_group_of_absent db user g hg⟩
  · unfold has_action_permissionE has_action_permission
    cases h : assocLookup view.permission_groups action with
    | none => rfl
    | some required =>
      dsimp only
      cases hp : required.contains "_Public" with
      | true => rfl
      | false =>
        simp only [Bool.false_eq_true, if_false]
        rw [anyMemberE_ok]
        simp [check_in_group]
  · intro h
    unfold has_action_permission
    rw [h]

/-- C8 witness: an unknown action and an unknown group both deny without
raising. -/
theorem evaluator_never_raises_witness :
    has_action_permissionE [] 7 (View.mk "x" [("x", ["ghosts"])]) "x" =
      .ok (has_action_permission [] 7 (View.mk "x" [("x", ["ghosts"])]) "x") ∧
    has_action_permission [] 7 (View.mk "x" [("x", ["ghosts"])]) "y" = false ∧
    is_in_group [] 7 "ghosts" = false :=
  ⟨(evaluator_never_raises [] 7 (View.mk "x" [("x", ["ghosts"])]) "x").1,
   (evaluator_never_raises [] 7 (View.mk "x" [("x", ["ghosts"])]) "y").2.1
     (by decide),
   (evaluator_never_raises [] 7 (View.mk "x" [("x", ["ghosts"])]) "x").2.2
     "ghosts" (by decide)⟩

/-! ## Helper lemmas about the provisioner -/

lemma assocLookup_clearPerms_self (db : GroupDB) (name : String)
    (ps : List String) (h : assocLookup db name = some ps) :
    assocLookup (clearPerms db name) name = some [] := by
  induction db with
  | nil => simp [assocLookup] at h
  | cons g rest ih =>
    obtain ⟨k, v⟩ := g
    by_cases hg : k = name
    · simp [clearPerms, assocLookup, hg]
    · have h' : assocLookup rest name = some ps := by
        simpa [assocLookup, hg] using h
      simp [clearPerms, assocLookup, hg, ih h']

lemma assocLookup_addPerm_self (db : GroupDB) (name p : String)
    (cur : List String) (h : assocLookup db name = some cur) :
    assocLookup (addPerm db name p) name =
      some (if cur.contains p then cur else cur ++ [p]) := by
  induction db with
  | nil => simp [assocLookup] at h
  | cons g rest ih =>
    obtain ⟨k, v⟩ := g
    by_cases hg : k = name
    · have hv : v = cur := by simpa [assocLookup, hg] using h
      subst hv
      simp [addPerm, assocLookup, hg]
    · have h' : assocLookup rest name = some cur := by
        simpa [assocLookup, hg] using h
      simp [addPerm, assocLookup, hg, ih h']

lemma mem_addPerm_iff (cur : List String) (p s : String) :
    (s ∈ (if cur.contains p then cur else cur ++ [p])) ↔
      (s ∈ cur ∨ s = p) := by
  cases hc : cur.contains p with
  | false => simp
  | true =>
    have hp : p ∈ cur := by simpa [List.elem_eq_mem] using hc
    simp only [if_true]
    constructor
    · exact Or.inl
    · rintro (h | rfl)
      · exact h
      · exact hp

lemma assocLookup_append_self (db : GroupDB) (name : String)
    (h : assocLookup db name = Option.none) :
    assocLookup (db ++ [(name, ([] : List String))]) name = some [] := by
  induction db with
  | nil => simp [assocLookup]
  | cons g rest ih =>
    obtain ⟨k, v⟩ := g
    by_cases hg : k = name
    · simp [assocLookup, hg] at h
    · have h' : assocLookup rest name = Option.none := by
        simpa [assocLookup, hg] using h
      simp [assocLookup, hg, ih h']

lemma assocLookup_deleteGroup_self (db : GroupDB) (name : String) :
    assocLookup (deleteGroup db name) name = Option.none := by
  induction db with
  | nil => rfl
  | cons g rest ih =>
    obtain ⟨k, v⟩ := g
    by_cases hg : k = name
    · simpa [deleteGroup, List.filter_cons, hg] using ih
    · simpa [deleteGroup, List.filter_cons, hg, assocLookup] using ih

lemma contains_eq_true_iff (l : List String) (a : String) :
    l.contains a = true ↔ a ∈ l := by
  simp [List.elem_eq_mem]

lemma contains_eq_false_iff (l : List String) (a : String) :
    l.contains a = false ↔ a ∉ l := by
  simp [List.elem_eq_mem]

lemma addPermsLoop_ok (registry : List String) (name : String) (re : Bool)
    (perms : List PyVal) :
    ∀ db cur, assocLookup db name = some cur →
      (re = false ∨ ∀ c ∈ perms, resolves registry c = true) →
      ∃ db' cur', addPermsLoop registry name re db perms = (db', Option.none) ∧
        assocLookup db' name = some cur' ∧
        ∀ s, s ∈ cur' ↔ (s ∈ cur ∨ (PyVal.str s ∈ perms ∧ s ∈ registry)) := by
  induction perms with
  | nil =>
    intro db cur h _
    exact ⟨db, cur, rfl, h, by simp⟩
  | cons c rest ih =>
    intro db cur h hok
    have hok' : re = false ∨ ∀ x ∈ rest, resolves registry x = true := by
      rcases hok with h1 | h1
      · exact Or.inl h1
      · exact Or.inr fun x hx => h1 x (List.mem_cons_of_mem _ hx)
    cases c with
    | str s0 =>
      cases hreg : registry.contains s0 with
      | true =>
        have hs0 : s0 ∈ registry := (contains_eq_true_iff _ _).mp hreg
        have hadd := assocLookup_addPerm_self db name s0 cur h
        obtain ⟨db', cur', h1, h2, h3⟩ := ih (addPerm db name s0) _ hadd hok'
        refine ⟨db', cur', ?_, h2, fun s => ?_⟩
        · simpa [addPermsLoop, hs0] using h1
        · rw [h3 s, mem_addPerm_iff]
          constructor
          · rintro ((hs | rfl) | ⟨hr, hreg'⟩)
            · exact Or.inl hs
            · exact Or.inr ⟨List.mem_cons_self _ _, hs0⟩
            · exact Or.inr ⟨List.mem_cons_of_mem _ hr, hreg'⟩
          · rintro (hs | ⟨hr, hreg'⟩)
            · exact Or.inl (Or.inl hs)
            · rcases List.mem_cons.mp hr with heq | hr'
              · exact Or.inl (Or.inr (PyVal.str.inj heq))
              · exact Or.inr ⟨hr', hreg'⟩
      | false =>
        have hnotreg : s0 ∉ registry := (contains_eq_false_iff _ _).mp hreg
        have hre : re = false := by
          rcases hok with h1 | h1
          · exact h1
          · have hbad := h1 _ (List.mem_cons_self (PyVal.str s0) rest)
            simp only [resolves] at hbad
            rw [hreg] at hbad
            cases hbad
        subst hre
        obtain ⟨db', cur', h1, h2, h3⟩ := ih db cur h hok'
        refine ⟨db', cur', ?_, h2, fun s => ?_⟩
        · simpa [addPermsLoop, hnotreg] using h1
        · rw [h3 s]
          constructor
          · rintro (hs | ⟨hr, hreg'⟩)
            · exact Or.inl hs
            · exact Or.inr ⟨List.mem_cons_of_mem _ hr, hreg'⟩
          · rintro (hs | ⟨hr, hreg'⟩)
            · exact Or.inl hs
            · rcases List.mem_cons.mp hr with heq | hr'
              · exact absurd hreg' ((PyVal.str.inj heq).symm ▸ hnotreg)
              · exact Or.inr ⟨hr', hreg'⟩
    | int n =>
      have hre : re = false := by
        rcases hok with h1 | h1
        · exact h1
        · have := h1 _ (List.mem_cons_self (PyVal.int n) rest)
          simp [resolves] at this
      subst hre
      obtain ⟨db', cur', h1, h2, h3⟩ := ih db cur h hok'
      refine ⟨db', cur', by simpa [addPermsLoop] using h1, h2, fun s => ?_⟩
      rw [h3 s]
      simp [List.mem_cons]
    | bool b =>
      have hre : re = false := by
        rcases hok with h1 | h1
        · exact h1
        · have := h1 _ (List.mem_cons_self (PyVal.bool b) rest)
          simp [resolves] at this
      subst hre
      obtain ⟨db', cur', h1, h2, h3⟩ := ih db cur h hok'
      refine ⟨db', cur', by simpa [addPermsLoop] using h1, h2, fun s => ?_⟩
      rw [h3 s]
      simp [List.mem_cons]
    | list l =>
      have hre : re = false := by
        rcases hok with h1 | h1
        · exact h1
        · have := h1 _ (List.mem_cons_self (PyVal.list l) rest)
          simp [resolves] at this
      subst hre
      obtain ⟨db', cur', h1, h2, h3⟩ := ih db cur h hok'
      refine ⟨db', cur', by simpa [addPermsLoop] using h1, h2, fun s => ?_⟩
      rw [h3 s]
      simp [List.mem_cons]
    | none =>
      have hre : re = false := by
        rcases hok with h1 | h1
        · exact h1
        · have := h1 _ (List.mem_cons_self PyVal.none rest)
          simp [resolves] at this
      subst hre
      obtain ⟨db', cur', h1, h2, h3⟩ := ih db cur h hok'
      refine ⟨db', cur', by simpa [addPermsLoop] using h1, h2, fun s => ?_⟩
      rw [h3 s]
      simp [List.mem_cons]

lemma addPermsLoop_err (registry : List String) (name : String)
    (perms : List PyVal) :
    ∀ db, (∃ c ∈ perms, resolves registry c = false) →
      ∃ db' m, addPermsLoop registry name true db perms =
        (db', some (.valueError m)) := by
  induction perms with
  | nil =>
    rintro db ⟨c, hc, _⟩
    cases hc
  | cons c rest ih =>
    rintro db ⟨c0, hc0, hbad⟩
    cases c with
    | str s0 =>
      cases hreg : registry.contains s0 with
      | true =>
        have hs0 : s0 ∈ registry := (contains_eq_true_iff _ _).mp hreg
        have hc0' : c0 ∈ rest := by
          rcases List.mem_cons.mp hc0 with rfl | h'
          · simp only [resolves] at hbad
            rw [hreg] at hbad
            cases hbad
          · exact h'
        obtain ⟨db', m, h1⟩ := ih (addPerm db name s0) ⟨c0, hc0', hbad⟩
        exact ⟨db', m, by simpa [addPermsLoop, hs0] using h1⟩
      | false =>
        have hnotreg : s0 ∉ registry := (contains_eq_false_iff _ _).mp hreg
        exact ⟨db, "Permission " ++ s0 ++ " does not exist",
          by simp [addPermsLoop, hnotreg]⟩
    | int n =>
      exact ⟨db, "Permission does not exist", by simp [addPermsLoop]⟩
    | bool b =>
      exact ⟨db, "Permission does not exist", by simp [addPermsLoop]⟩
    | list l =>
      exact ⟨db, "Permission does not exist", by simp [addPermsLoop]⟩
    | none =>
      exact ⟨db, "Permission does not exist", by simp [addPermsLoop]⟩

lemma addPermsLoop_no_raise (registry : List String) (name : String)
    (perms : List PyVal) :
    ∀ db, (addPermsLoop registry name false db perms).2 = Option.none := by
  induction perms with
  | nil => intro db; rfl
  | cons c rest ih =>
    intro db
    cases c with
    | str s0 =>
      cases hreg : registry.contains s0 with
      | true =>
        have hs0 : s0 ∈ registry := (contains_eq_true_iff _ _).mp hreg
        simpa [addPermsLoop, hs0] using ih (addPerm db name s0)
      | false =>
        have hnotreg : s0 ∉ registry := (contains_eq_false_iff _ _).mp hreg
        simpa [addPermsLoop, hnotreg] using ih db
    | int n => simpa [addPermsLoop] using ih db
    | bool b => simpa [addPermsLoop] using ih db
    | list l => simpa [addPermsLoop] using ih db
    | none => simpa [addPermsLoop] using ih db

/-- `isinstance(x, str)`. -/
def PyVal.isStr : PyVal → Bool
  | .str _ => true
  | _ => false

/-- `isinstance(x, list)`. -/
def PyVal.isList : PyVal → Bool
  | .list _ => true
  | _ => false

/-- `isinstance(x, bool)`. -/
def PyVal.isBool : PyVal → Bool
  | .bool _ => true
  | _ => false

/-! ## Claim theorems about the provisioner -/

/-- C4 counterexample: `force_recreate_group` does NOT raise a `TypeError`
unconditionally on a badly-typed argument — with a non-str group name and
`raise_exceptions=False` it returns normally, because its type checks are
guarded by `if raise_exceptions:`. -/
theorem force_recreate_group_silent_on_bad_type :
    force_recreate_group [] (PyVal.int 0) (PyVal.bool false)
      (PyVal.bool false) = ([], Option.none) := rfl

/-- C4 amended: `create_group` raises a `TypeError` unconditionally whenever
any argument fails its `isinstance` check, regardless of `raise_exceptions`;
in `force_recreate_group`, however, a failed type check raises only when
`raise_exceptions` is truthy and otherwise the call returns normally with
the store untouched. -/
theorem provisioner_type_validation (registry : List String) (db : GroupDB)
    (gname perms f v re : PyVal) :
    (¬(gname.isStr = true ∧ perms.isList = true ∧ f.isBool = true ∧
        v.isBool = true ∧ re.isBool = true) →
      ∃ m, create_group registry db gname perms f v re =
        (db, some (.typeError m))) ∧
    (¬(gname.isStr = true ∧ v.isBool = true ∧ re.isBool = true) →
      (pyTruthy re = true →
        ∃ m, force_recreate_group db gname v re =
          (db, some (.typeError m))) ∧
      (pyTruthy re = false →
        force_recreate_group db gname v re = (db, Option.none))) := by
  constructor
  · intro hbad
    cases gname with
    | str s =>
      cases perms with
      | list l =>
        cases f with
        | bool fb =>
          cases v with
          | bool vb =>
            cases re with
            | bool reb => exact absurd ⟨rfl, rfl, rfl, rfl, rfl⟩ hbad
            | str s2 => exact ⟨"Expected bool", rfl⟩
            | int n => exact ⟨"Expected bool", rfl⟩
            | list l2 => exact ⟨"Expected bool", rfl⟩
            | none => exact ⟨"Expected bool", rfl⟩
          | str s2 => exact ⟨"Expected bool", rfl⟩
          | int n => exact ⟨"Expected bool", rfl⟩
          | list l2 => exact ⟨"Expected bool", rfl⟩
          | none => exact ⟨"Expected bool", rfl⟩
        | str s2 => exact ⟨"Expected bool", rfl⟩
        | int n => exact ⟨"Expected bool", rfl⟩
        | list l2 => exact ⟨"Expected bool", rfl⟩
        | none => exact ⟨"Expected bool", rfl⟩
      | str s2 => exact ⟨"Expected list", rfl⟩
      | int n => exact ⟨"Expected list", rfl⟩
      | bool b2 => exact ⟨"Expected list", rfl⟩
      | none => exact ⟨"Expected list", rfl⟩
    | int n => exact ⟨"Expected str", rfl⟩
    | bool b2 => exact ⟨"Expected str", rfl⟩
    | list l2 => exact ⟨"Expected str", rfl⟩
    | none => exact ⟨"Expected str", rfl⟩
  · intro hbad
    cases gname with
    | str s =>
      cases v with
      | bool vb =>
        cases re with
        | bool reb => exact absurd ⟨rfl, rfl, rfl⟩ hbad
        | str s2 =>
          exact ⟨fun ht => ⟨"Expected bool",
              by simp [force_recreate_group, ht]⟩,
            fun hf => by simp [force_recreate_group, hf]⟩
        | int n =>
          exact ⟨fun ht => ⟨"Expected bool",
              by simp [force_recreate_group, ht]⟩,
            fun hf => by simp [force_recreate_group, hf]⟩
        | list l2 =>
          exact ⟨fun ht => ⟨"Expected bool",
              by simp [force_recreate_group, ht]⟩,
            fun hf => by simp [force_recreate_group, hf]⟩
        | none =>
          exact ⟨fun ht => ⟨"Expected bool",
              by simp [force_recreate_group, ht]⟩,
            fun hf => by simp [force_recreate_group, hf]⟩
      | str s2 =>
        exact ⟨fun ht => ⟨"Expected bool",
            by simp [force_recreate_group, ht]⟩,
          fun hf => by simp [force_recreate_group, hf]⟩
      | int n =>
        exact ⟨fun ht => ⟨"Expected bool",
            by simp [force_recreate_group, ht]⟩,
          fun hf => by simp [force_recreate_group, hf]⟩
      | list l2 =>
        exact ⟨fun ht => ⟨"Expected bool",
            by simp [force_recreate_group, ht]⟩,
          fun hf => by simp [force_recreate_group, hf]⟩
      | none =>
        exact ⟨fun ht => ⟨"Expected bool",
            by simp [force_recreate_group, ht]⟩,
          fun hf => by simp [force_recreate_group, hf]⟩
    | int n =>
      exact ⟨fun ht => ⟨"Expected str",
          by simp [force_recreate_group, ht]⟩,
        fun hf => by simp [force_recreate_group, hf]⟩
    | bool b2 =>
      exact ⟨fun ht => ⟨"Expected str",
          by simp [force_recreate_group, ht]⟩,
        fun hf => by simp [force_recreate_group, hf]⟩
    | list l2 =>
      exact ⟨fun ht => ⟨"Expected str",
          by simp [force_recreate_group, ht]⟩,
        fun hf => by simp [force_recreate_group, hf]⟩
    | none =>
      exact ⟨fun ht => ⟨"Expected str",
          by simp [force_recreate_group, ht]⟩,
        fun hf => by simp [force_recreate_group, hf]⟩

/-- C4 amended witness: an `int` group name makes `create_group` raise for
every flag value, while `force_recreate_group` raises only when the flag is
truthy. -/
theorem provisioner_type_validation_witness :
    (∃ m, create_group [] [] (PyVal.int 1) (PyVal.list []) (PyVal.bool false)
        (PyVal.bool false) (PyVal.bool false) = ([], some (.typeError m))) ∧
    (∃ m, force_recreate_group [] (PyVal.int 1) (PyVal.bool false)
        (PyVal.bool true) = ([], some (.typeError m))) :=
  ⟨(provisioner_type_validation [] [] (PyVal.int 1) (PyVal.list [])
      (PyVal.bool false) (PyVal.bool false) (PyVal.bool false)).1
      (by simp [PyVal.isStr]),
   ((provisioner_type_validation [] [] (PyVal.int 1) (PyVal.list [])
      (PyVal.bool false) (PyVal.bool false) (PyVal.bool true)).2
      (by simp [PyVal.isStr])).1 rfl⟩

/-- C5: on an existing group, `create_group` with `force=False` and
`raise_exceptions=True` raises the already-exists `ValueError` before any
mutation: the returned store is the input store, so the group's permission
set is exactly what it was. -/
theorem create_group_conflict_unchanged (registry : List String)
    (db : GroupDB) (name : String) (perms : List PyVal) (verbose : Bool)
    (ps : List String) (h : assocLookup db name = some ps) :
    create_group_core registry db name perms false verbose true =
      (db, some (.valueError ("Group " ++ name ++ " already exists"))) ∧
    assocLookup
      (create_group_core registry db name perms false verbose true).1 name =
      some ps := by
  have e : create_group_core registry db name perms false verbose true =
      (db, some (.valueError ("Group " ++ name ++ " already exists"))) := by
    unfold create_group_core
    rw [h]
    rfl
  exact ⟨e, by rw [e]; exact h⟩

/-- C5 witness: group "g" with permission set {"old"} is left untouched. -/
theorem create_group_conflict_unchanged_witness :
    assocLookup [("g", ["old"])] "g" = some ["old"] ∧
    create_group_core ["p1"] [("g", ["old"])] "g" [PyVal.str "p1"] false false
        true =
      ([("g", ["old"])],
        some (.valueError ("Group " ++ "g" ++ " already exists"))) :=
  ⟨by decide,
   (create_group_conflict_unchanged ["p1"] [("g", ["old"])] "g"
      [PyVal.str "p1"] false ["old"] (by decide)).1⟩

/-- C6: on an existing group, `create_group` with `force=True` and a request
whose codenames all resolve clears the old permissions and attaches the
requested ones, so the resulting permission set is exactly the requested
set. -/
theorem create_group_force_replaces (registry : List String) (db : GroupDB)
    (name : String) (perms : List PyVal) (verbose re : Bool)
    (ps : List String) (h : assocLookup db name = some ps)
    (hres : ∀ c ∈ perms, resolves registry c = true) :
    ∃ db' ps',
      create_group_core registry db name perms true verbose re =
        (db', Option.none) ∧
      assocLookup db' name = some ps' ∧
      ∀ s, s ∈ ps' ↔ PyVal.str s ∈ perms := by
  have hclear := assocLookup_clearPerms_self db name ps h
  obtain ⟨db', ps', h1, h2, h3⟩ :=
    addPermsLoop_ok registry name re perms (clearPerms db name) [] hclear
      (Or.inr hres)
  have ecore : create_group_core registry db name perms true verbose re =
      addPermsLoop registry name re (clearPerms db name) perms := by
    unfold create_group_core
    rw [h]
    rfl
  refine ⟨db', ps', by rw [ecore]; exact h1, h2, fun s => ?_⟩
  rw [h3 s]
  simp only [List.not_mem_nil, false_or]
  constructor
  · rintro ⟨hp, _⟩
    exact hp
  · intro hp
    have hs : s ∈ registry := by
      have := hres _ hp
      simp only [resolves] at this
      exact (contains_eq_true_iff _ _).mp this
    exact ⟨hp, hs⟩

/-- C6 witness: {"old"} is replaced by exactly {"p2"}. -/
theorem create_group_force_replaces_witness :
    assocLookup [("g", ["old"])] "g" = some ["old"] ∧
    ∃ db' ps',
      create_group_core ["p2"] [("g", ["old"])] "g" [PyVal.str "p2"] true
          false true =
        (db', Option.none) ∧
      assocLookup db' "g" = some ps' ∧
      ∀ s, s ∈ ps' ↔ PyVal.str s ∈ [PyVal.str "p2"] :=
  ⟨by decide,
   create_group_force_replaces ["p2"] [("g", ["old"])] "g" [PyVal.str "p2"]
     false true ["old"] (by decide)
     (by
        intro c hc
        rw [List.mem_singleton] at hc
        subst hc
        rfl)⟩

/-- C7: on a fresh name `create_group` creates the group; with raising
disabled (or every codename resolving) it completes and attaches exactly
the resolvable requested codenames, and with raising enabled an
unresolvable codename makes the call raise a not-found `ValueError`. -/
theorem create_group_fresh (registry : List String) (db : GroupDB)
    (name : String) (perms : List PyVal) (force verbose re : Bool)
    (h : assocLookup db name = Option.none) :
    ((re = false ∨ ∀ c ∈ perms, resolves registry c = true) →
      ∃ db' ps',
        create_group_core registry db name perms force verbose re =
          (db', Option.none) ∧
        assocLookup db' name = some ps' ∧
        ∀ s, s ∈ ps' ↔ (PyVal.str s ∈ perms ∧ s ∈ registry)) ∧
    (re = true → (∃ c ∈ perms, resolves registry c = false) →
      ∃ db' m,
        create_group_core registry db name perms force verbose re =
          (db', some (.valueError m))) := by
  have hbase := assocLookup_append_self db name h
  have ecore : create_group_core registry db name perms force verbose re =
      addPermsLoop registry name re (db ++ [(name, ([] : List String))])
        perms := by
    unfold create_group_core
    rw [h]
  constructor
  · intro hok
    obtain ⟨db', ps', h1, h2, h3⟩ :=
      addPermsLoop_ok registry name re perms _ [] hbase hok
    refine ⟨db', ps', by rw [ecore]; exact h1, h2, fun s => ?_⟩
    rw [h3 s]
    simp
  · rintro rfl hex
    obtain ⟨db', m, h1⟩ := addPermsLoop_err registry name perms _ hex
    exact ⟨db', m, by rw [ecore]; exact h1⟩

/-- C7 witness: creating "g" with the single resolvable codename "p1"
attaches exactly {"p1"}. -/
theorem create_group_fresh_witness :
    assocLookup ([] : GroupDB) "g" = Option.none ∧
    ∃ db' ps',
      create_group_core ["p1"] [] "g" [PyVal.str "p1"] false false false =
        (db', Option.none) ∧
      assocLookup db' "g" = some ps' ∧
      ∀ s, s ∈ ps' ↔ (PyVal.str s ∈ [PyVal.str "p1"] ∧ s ∈ ["p1"]) :=
  ⟨rfl,
   (create_group_fresh ["p1"] [] "g" [PyVal.str "p1"] false false false
      rfl).1 (Or.inl rfl)⟩

/-- C9: `force_recreate_group` only deletes — on an existing group it
removes the group (the store afterwards has no group of that name, nothing
is recreated); on an absent name it raises `ValueError` when
`raise_exceptions=True` and returns the store unchanged when
`raise_exceptions=False`. -/
theorem force_recreate_group_deletes_only (db : GroupDB) (name : String)
    (v re : Bool) :
    (∀ ms, assocLookup db name = some ms →
      force_recreate_group db (PyVal.str name) (PyVal.bool v)
          (PyVal.bool re) = (deleteGroup db name, Option.none) ∧
      assocLookup (deleteGroup db name) name = Option.none) ∧
    (assocLookup db name = Option.none →
      (re = true →
        force_recreate_group db (PyVal.str name) (PyVal.bool v)
            (PyVal.bool re) =
          (db,
            some (.valueError ("Group " ++ name ++ " does not exist")))) ∧
      (re = false →
        force_recreate_group db (PyVal.str name) (PyVal.bool v)
            (PyVal.bool re) = (db, Option.none))) := by
  constructor
  · intro ms hms
    refine ⟨?_, assocLookup_deleteGroup_self db name⟩
    unfold force_recreate_group
    dsimp only
    rw [hms]
  · intro habs
    constructor
    · rintro rfl
      unfold force_recreate_group
      dsimp only
      rw [habs]
      simp
    · rintro rfl
      unfold force_recreate_group
      dsimp only
      rw [habs]
      simp

/-- C9 witness: deleting the existing "g" leaves no "g"; on an empty store
with raising disabled the call is a no-op. -/
theorem force_recreate_group_deletes_only_witness :
    (assocLookup [("g", ["p"])] "g" = some ["p"] ∧
      force_recreate_group [("g", ["p"])] (PyVal.str "g") (PyVal.bool false)
          (PyVal.bool true) =
        (deleteGroup [("g", ["p"])] "g", Option.none)) ∧
    force_recreate_group [] (PyVal.str "g") (PyVal.bool false)
        (PyVal.bool false) = ([], Option.none) :=
  ⟨⟨by decide,
    ((force_recreate_group_deletes_only [("g", ["p"])] "g" false true).1
      ["p"] (by decide)).1⟩,
   ((force_recreate_group_deletes_only [] "g" false false).2 rfl).2 rfl⟩

/-- C10: with well-typed arguments and `raise_exceptions=False`,
`create_group` never raises: every error condition reachable after type
validation is guarded by the flag, so the call completes normally. -/
theorem create_group_no_raise_flag_off (registry : List String)
    (db : GroupDB) (name : String) (perms : List PyVal) (f v : Bool) :
    (create_group registry db (PyVal.str name) (PyVal.list perms)
        (PyVal.bool f) (PyVal.bool v) (PyVal.bool false)).2 =
      Option.none := by
  show (create_group_core registry db name perms f v false).2 = Option.none
  unfold create_group_core
  cases hl : assocLookup db name with
  | none => exact addPermsLoop_no_raise registry name perms _
  | some ps =>
    cases f with
    | true => exact addPermsLoop_no_raise registry name perms _
    | false => rfl

end PyserverTools
